import Mathlib

/-!
Verification of the dart Cricket scoreboard core
(`app/game-screen.js`, with the legacy `game-screen.js` variant
modelled where it alone implements a behaviour under scrutiny).

The embedding is shallow: the pure fragments of the React component
(grid transitions, win detection, the record-store updates done through
AsyncStorage) become Lean functions over explicit state.  Asynchronous
storage is modelled as explicit list-valued collections threaded through
the functions; the wall clock is an explicit `now` argument.
-/

namespace Cricket

/-- A grid cell: `{ taps: n }` in the source. -/
structure Cell where
  taps : Nat
deriving DecidableEq, Repr

/-- The grid is an ordered list of rows, each row a list of cells
(`grid[rowIndex][colIndex]` in the source). -/
abbrev Grid := List (List Cell)

/-- One reversible tap event, `{ rowIndex, colIndex, previousTaps }`. -/
structure Move where
  rowIndex : Nat
  colIndex : Nat
  previousTaps : Nat
deriving DecidableEq, Repr

/-- The move history: an ordered list, most recent last
(the source pushes onto the end and pops from the end). -/
abbrev History := List Move

/-- `const rows = ['20','19','18','17','16','15','Bull']` -/
def rowLabels : List String := ["20", "19", "18", "17", "16", "15", "Bull"]

/-- `rows.map(() => Array(players.length).fill({ taps: 0 }))` -/
def initialGridState (playerCount : Nat) : Grid :=
  rowLabels.map (fun _ => List.replicate playerCount ⟨0⟩)

/-- Reading `grid[rowIndex][colIndex]`; out-of-range access is totalised
with the zero cell (callers in the source always stay in range). -/
def getCell (g : Grid) (r c : Nat) : Cell :=
  (g.getD r []).getD c ⟨0⟩

/-- The pure grid/history part of `handleCellPress` (app variant,
lines 124-141): copy the grid, read `previousTaps`, write
`{ taps: min(previousTaps + 1, 3) }`, and append the move to history
unconditionally. -/
def applyTap (g : Grid) (h : History) (r c : Nat) : Grid × History :=
  let previousTaps := (getCell g r c).taps
  let newTaps := min (previousTaps + 1) 3
  let newGrid := g.set r ((g.getD r []).set c ⟨newTaps⟩)
  (newGrid, h ++ [⟨r, c, previousTaps⟩])

/-- `checkForWinner(grid, colIndex)`: take the tapped column,
report a win exactly when every cell of it has `taps === 3`.
The source then reads `players[colIndex]`; here we return the winning
column index. -/
def checkForWinner (g : Grid) (colIndex : Nat) : Option Nat :=
  let column := g.map (fun row => row.getD colIndex ⟨0⟩)
  if column.all (fun cell => cell.taps == 3) then some colIndex else none

/-- The win signal produced by a tap: `handleCellPress` calls
`checkForWinner(newGrid, colIndex)` on the freshly tapped grid. -/
def tapWinner (g : Grid) (h : History) (r c : Nat) : Option Nat :=
  checkForWinner (applyTap g h r c).1 c

/-- The pure part of `handleUndo` (app variant, lines 149-165): if the
history is empty do nothing, otherwise pop the last move and restore
that cell to `{ taps: previousTaps }`. -/
def undo (g : Grid) (h : History) : Grid × History :=
  match h.getLast? with
  | none => (g, h)
  | some lastMove =>
      (g.set lastMove.rowIndex
        ((g.getD lastMove.rowIndex []).set lastMove.colIndex ⟨lastMove.previousTaps⟩),
       h.dropLast)

/-- A sequence of taps applied in order (each entry a `(rowIndex, colIndex)`
pair), folding `applyTap` over the grid and history. -/
def applyTaps (gh : Grid × History) (taps : List (Nat × Nat)) : Grid × History :=
  taps.foldl (fun gh rc => applyTap gh.1 gh.2 rc.1 rc.2) gh

/-- A durable game record (§6 field names: `gameName, players, grid,
history, date, time, winner`); `time` and `winner` appear only on
completed records, so they are optional here. A completed record carries
no history; we keep the field and store `[]` there. -/
structure GameRecord where
  gameName : String
  players : List String
  grid : Grid
  history : History
  date : String
  time : Option String := none
  winner : Option String := none
deriving DecidableEq, Repr

/-- The de-duplicating update used by `saveGame` / `saveResetGame`
(app variant): `games.filter(game => game.gameName !== gameName)`
followed by `updatedGames.push(gameData)`. -/
def upsert (games : List GameRecord) (rec : GameRecord) : List GameRecord :=
  (games.filter (fun game => game.gameName ≠ rec.gameName)) ++ [rec]

/-- `saveGame` (app variant, lines 89-113) restricted to its effect on the
`inProgressGames` collection: build `gameData` with the current clock as
`date` and upsert it by `gameName`. -/
def saveGame (games : List GameRecord) (gameName : String) (players : List String)
    (grid : Grid) (history : History) (now : String) : List GameRecord :=
  upsert games ⟨gameName, players, grid, history, now, none, none⟩

/-- `saveResetGame` (app variant, lines 195-220): like `saveGame` but stores
the freshly initialised grid and an empty history. -/
def saveResetGame (games : List GameRecord) (gameName : String)
    (players : List String) (now : String) : List GameRecord :=
  upsert games ⟨gameName, players, initialGridState players.length, [], now, none, none⟩

/-- The two durable collections, keys `inProgressGames` / `completedGames`. -/
structure Store where
  inProgressGames : List GameRecord
  completedGames : List GameRecord
deriving DecidableEq, Repr

/-- `removeFromInProgress` (app variant, lines 228-238):
filter the in-progress list by `game.gameName !== gameName`. -/
def removeFromInProgress (games : List GameRecord) (gameName : String) :
    List GameRecord :=
  games.filter (fun game => game.gameName ≠ gameName)

/-- `saveCompletedGame(winnerName)` (app variant, lines 245-265): push the
completed record onto `completedGames` (a plain append, not an upsert),
then remove the game from `inProgressGames` by name. -/
def saveCompletedGame (store : Store) (gameName : String) (players : List String)
    (grid : Grid) (winnerName : String) (date time : String) : Store :=
  let completedGame : GameRecord :=
    ⟨gameName, players, grid, [], date, some time, some winnerName⟩
  { inProgressGames := removeFromInProgress store.inProgressGames gameName,
    completedGames := store.completedGames ++ [completedGame] }

/-- The in-memory session of `GameScreenPage`: grid, history and the
`isWinnerDeclared` flag. -/
structure SessionState where
  gameName : String
  players : List String
  grid : Grid
  history : History
  isWinnerDeclared : Bool
deriving DecidableEq, Repr

/-- `handleCellPress` at session level: refused when a winner is declared;
otherwise tap, record the move, and declare a winner when the tapped
column closes. -/
def handleCellPress (s : SessionState) (r c : Nat) : SessionState :=
  if s.isWinnerDeclared then s
  else
    let gh := applyTap s.grid s.history r c
    let w := checkForWinner gh.1 c
    { s with grid := gh.1, history := gh.2, isWinnerDeclared := w.isSome }

/-- `handleUndo` at session level: refused when the history is empty or a
winner is declared; otherwise pop and restore. -/
def handleUndo (s : SessionState) : SessionState :=
  if s.history.length = 0 ∨ s.isWinnerDeclared then s
  else
    let gh := undo s.grid s.history
    { s with grid := gh.1, history := gh.2 }

/-- The `onPress: 'Yes'` branch of `handleResetBoard` (app variant,
lines 172-186): reinitialise the grid and clear the history.  The source
has no `isWinnerDeclared` guard here and does not clear the flag. -/
def handleResetBoardConfirm (s : SessionState) : SessionState :=
  { s with grid := initialGridState s.players.length, history := [] }

/-- The error the spec assigns to out-of-range player counts. -/
inductive InitGridError where
  | invalidArgument
deriving DecidableEq, Repr

/-- Modelled from the spec (§4.1), for comparison with the source's
`initialGridState`: "initGrid(playerCount) → Grid with all cells
{taps:0}, 7 rows × playerCount columns. Fails with InvalidArgument if
playerCount not in [2,4]." -/
def initGridSpec (playerCount : Nat) : Except InitGridError Grid :=
  if 2 ≤ playerCount ∧ playerCount ≤ 4 then
    Except.ok (List.replicate 7 (List.replicate playerCount ⟨0⟩))
  else
    Except.error InitGridError.invalidArgument

/-- The Bool test for "this record has the given game name". -/
def hasName (gameName : String) (rec : GameRecord) : Bool :=
  rec.gameName == gameName

/-- The grid invariant of §3: 7 rows, each row exactly `playerCount`
cells, every cell's taps in `[0,3]` (the lower bound is free on `Nat`). -/
def GridWF (playerCount : Nat) (g : Grid) : Prop :=
  g.length = 7 ∧ ∀ row ∈ g, row.length = playerCount ∧ ∀ cell ∈ row, cell.taps ≤ 3

/-- Histories the source can build: every recorded `previousTaps` was read
from a grid cell, hence is at most 3. -/
def HistWF (h : History) : Prop := ∀ m ∈ h, m.previousTaps ≤ 3

/-- A concrete record used to instantiate theorems. -/
def recG : GameRecord :=
  ⟨"G", ["Player 1", "Player 2"], initialGridState 2, [], "1/1/2025", none, none⟩

/-- A second record with the same name but different content. -/
def recG' : GameRecord :=
  ⟨"G", ["A", "B", "C"], initialGridState 3, [⟨0, 0, 0⟩], "2/2/2025", none, none⟩

/-- A 7×2 grid whose (0,0) cell is already at the 3-tap ceiling. -/
def maxedGrid : Grid := [⟨3⟩, ⟨0⟩] :: List.replicate 6 [⟨0⟩, ⟨0⟩]

/-- A grid one tap away from closing column 0 (2 players): cell (0,0) at
2 taps, the other six rows of column 0 already at 3. -/
def almostWonGrid : Grid := [⟨2⟩, ⟨0⟩] :: List.replicate 6 [⟨3⟩, ⟨0⟩]

/-- A session in the WON state: column 0 closed, one recorded move,
`isWinnerDeclared` set. -/
def wonState : SessionState :=
  ⟨"G", ["Player 1", "Player 2"],
    rowLabels.map (fun _ => [⟨3⟩, ⟨0⟩]), [⟨0, 0, 2⟩], true⟩

/-- A previously completed game that shares the name "G". -/
def recGdone : GameRecord :=
  ⟨"G", ["X", "Y"], initialGridState 2, [], "12/12/2024", some "10:00", some "X"⟩

/-- A store in which "G" is in progress and a completed "G" already
exists. -/
def cxStore : Store := ⟨[recG], [recGdone]⟩

/-- A store in which only "G" is in progress and nothing is completed. -/
def freshStore : Store := ⟨[recG], []⟩

/-- A serialized route parameter: absent (falsy), present but failing
`JSON.parse`, or parsing to a value. -/
inductive Param (α : Type) where
  | absent : Param α
  | malformed : Param α
  | parsed : α → Param α
deriving DecidableEq, Repr

/-- `['Player 1', 'Player 2']`, the pre-try default. -/
def defaultPlayers : List String := ["Player 1", "Player 2"]

/-- The values session construction produces from its route parameters,
plus whether it redirected to game setup. -/
structure SessionParams where
  players : List String
  grid : Grid
  history : History
  redirected : Bool
deriving DecidableEq, Repr

/-- Parameter parsing of the legacy `game-screen.js` (lines 17-31), the
variant with the try/catch fallback: `players`, `grid`, `history` start
at `['Player 1','Player 2']`, `[]`, `[]`; the try block parses them in
that order, a failing parse aborts the block keeping earlier
assignments, and the catch redirects to `/game-setup`.  (The
`app/game-screen.js` variant has no try/catch at all.) -/
def parseParams (playersParam : Param (List String)) (gridParam : Param Grid)
    (historyParam : Param History) : SessionParams :=
  match playersParam with
  | Param.malformed => ⟨defaultPlayers, [], [], true⟩
  | _ =>
    let players := match playersParam with
      | Param.parsed p => p
      | _ => defaultPlayers
    match gridParam with
    | Param.malformed => ⟨players, [], [], true⟩
    | _ =>
      let grid := match gridParam with
        | Param.parsed g => g
        | _ => rowLabels.map (fun _ => List.replicate players.length ⟨0⟩)
      match historyParam with
      | Param.malformed => ⟨players, grid, [], true⟩
      | _ =>
        let history := match historyParam with
          | Param.parsed hs => hs
          | _ => []
        ⟨players, grid, history, false⟩

/-- `GridWF` and `HistWF` are decidable, so concrete instances can be
checked by evaluation. -/
instance (pc : Nat) (g : Grid) : Decidable (GridWF pc g) := by
  unfold GridWF; infer_instance

instance (h : History) : Decidable (HistWF h) := by
  unfold HistWF; infer_instance

section StoreLemmas

/-- No record surviving the `gameName`-based filter matches that name. -/
theorem countP_filter_ne_name (games : List GameRecord) (gameName : String) :
    (games.filter (fun game => game.gameName ≠ gameName)).countP
      (hasName gameName) = 0 := by
  rw [List.countP_eq_zero]
  intro a ha
  rw [List.mem_filter] at ha
  simp only [hasName, beq_iff_eq]
  simpa using ha.2

/-- After an upsert the collection holds exactly one record with the
upserted name. -/
theorem countP_upsert (games : List GameRecord) (rec : GameRecord) :
    (upsert games rec).countP (hasName rec.gameName) = 1 := by
  unfold upsert
  rw [List.countP_append, countP_filter_ne_name]
  simp [hasName, List.countP_cons]

/-- Any record in the upserted collection bearing the upserted name is
the upserted record itself. -/
theorem mem_upsert_eq_of_name (games : List GameRecord) (rec : GameRecord) :
    ∀ r ∈ upsert games rec, r.gameName = rec.gameName → r = rec := by
  intro r hr hname
  unfold upsert at hr
  rcases List.mem_append.mp hr with hmem | hmem
  · rw [List.mem_filter] at hmem
    exact absurd hname (by simpa using hmem.2)
  · simpa using hmem

end StoreLemmas

/-- C1: `saveGame`'s upsert into the in-progress collection removes every
record whose `gameName` equals the new record's and then appends it, so
the result holds exactly one record with that name, any record with that
name is the new record itself (identity by name, never by content), and
a second upsert of the same record still leaves exactly one. -/
theorem upsert_dedup_by_name (games : List GameRecord) (rec : GameRecord) :
    (upsert games rec).countP (hasName rec.gameName) = 1
    ∧ (∀ r ∈ upsert games rec, r.gameName = rec.gameName → r = rec)
    ∧ (upsert (upsert games rec) rec).countP (hasName rec.gameName) = 1 :=
  ⟨countP_upsert games rec, mem_upsert_eq_of_name games rec,
    countP_upsert (upsert games rec) rec⟩

/-- Witness for C1 at a concrete collection already holding a same-named
record of different content. -/
theorem upsert_dedup_by_name_witness :
    (upsert [recG'] recG).countP (hasName recG.gameName) = 1
    ∧ (∀ r ∈ upsert [recG'] recG, r.gameName = recG.gameName → r = recG)
    ∧ (upsert (upsert [recG'] recG) recG).countP (hasName recG.gameName) = 1 :=
  upsert_dedup_by_name [recG'] recG

/-- C9 (counterexample): the source's `initialGridState` performs no
player-count validation: at `playerCount = 5` it returns a normal
7 × 5 all-zero grid, while the claimed behaviour (`initGridSpec`,
following the spec's words) fails with `InvalidArgument`. -/
theorem initialGridState_no_validation :
    initialGridState 5 = List.replicate 7 (List.replicate 5 ⟨0⟩)
    ∧ initGridSpec 5 = Except.error InitGridError.invalidArgument := by
  constructor
  · rfl
  · rfl

/-- C9 (amended): for every `playerCount` whatsoever, `initialGridState`
returns 7 rows of `playerCount` all-zero cells; it never rejects an
out-of-range count. -/
theorem initialGridState_shape (playerCount : Nat) :
    initialGridState playerCount =
      List.replicate 7 (List.replicate playerCount ⟨0⟩) := rfl

/-- C10: every persist of the active game stamps the stored record's
`date` with the clock at save time: after `saveGame` (tap/undo/suspend
saves) and after `saveResetGame` (save after reset), the unique record
with the session's `gameName` carries `date = now`. -/
theorem saved_record_date_is_save_time (games : List GameRecord)
    (gameName : String) (players : List String) (grid : Grid)
    (history : History) (now : String) :
    (∀ r ∈ saveGame games gameName players grid history now,
        r.gameName = gameName → r.date = now)
    ∧ (saveGame games gameName players grid history now).countP
        (hasName gameName) = 1
    ∧ (∀ r ∈ saveResetGame games gameName players now,
        r.gameName = gameName → r.date = now)
    ∧ (saveResetGame games gameName players now).countP
        (hasName gameName) = 1 := by
  unfold saveGame saveResetGame
  refine ⟨?_, countP_upsert games ⟨gameName, players, grid, history, now, none, none⟩,
    ?_, countP_upsert games
      ⟨gameName, players, initialGridState players.length, [], now, none, none⟩⟩
  · intro r hr hname
    have := mem_upsert_eq_of_name games _ r hr hname
    rw [this]
  · intro r hr hname
    have := mem_upsert_eq_of_name games _ r hr hname
    rw [this]

/-- Witness for C10 at a concrete store whose existing record carries an
older date. -/
theorem saved_record_date_is_save_time_witness :
    (∀ r ∈ saveGame [recG] "G" ["Player 1", "Player 2"]
        (initialGridState 2) [] "3/3/2025",
        r.gameName = "G" → r.date = "3/3/2025")
    ∧ (saveGame [recG] "G" ["Player 1", "Player 2"]
        (initialGridState 2) [] "3/3/2025").countP (hasName "G") = 1
    ∧ (∀ r ∈ saveResetGame [recG] "G" ["Player 1", "Player 2"] "3/3/2025",
        r.gameName = "G" → r.date = "3/3/2025")
    ∧ (saveResetGame [recG] "G" ["Player 1", "Player 2"] "3/3/2025").countP
        (hasName "G") = 1 :=
  saved_record_date_is_save_time [recG] "G" ["Player 1", "Player 2"]
    (initialGridState 2) [] "3/3/2025"

section GridLemmas

theorem getCell_taps_le {g : Grid}
    (hg : ∀ row ∈ g, ∀ cell ∈ row, cell.taps ≤ 3) (r c : Nat) :
    (getCell g r c).taps ≤ 3 := by
  unfold getCell
  simp only [List.getD_eq_getElem?_getD]
  cases hrow : g[r]? with
  | none => simp [hrow]
  | some row =>
    have hrowmem : row ∈ g := by
      obtain ⟨hlt, he⟩ := List.getElem?_eq_some_iff.mp hrow
      exact he ▸ List.getElem_mem hlt
    cases hcell : row[c]? with
    | none => simp [hrow, hcell]
    | some cell =>
      have hcellmem : cell ∈ row := by
        obtain ⟨hlt, he⟩ := List.getElem?_eq_some_iff.mp hcell
        exact he ▸ List.getElem_mem hlt
      simp only [hrow, hcell, Option.getD_some]
      exact hg row hrowmem cell hcellmem

theorem rowCells_le_of_set {row : List Cell} {cell : Cell} (c : Nat)
    (hcells : ∀ x ∈ row, x.taps ≤ 3) (hcell : cell.taps ≤ 3) :
    ∀ x ∈ row.set c cell, x.taps ≤ 3 := by
  intro x hx
  rcases List.mem_or_eq_of_mem_set hx with hx' | rfl
  · exact hcells x hx'
  · exact hcell

theorem gridWF_set {pc : Nat} {g : Grid} {r : Nat} {newRow : List Cell}
    (hg : GridWF pc g) (hlen : newRow.length = pc)
    (hcells : ∀ x ∈ newRow, x.taps ≤ 3) : GridWF pc (g.set r newRow) := by
  refine ⟨by rw [List.length_set]; exact hg.1, ?_⟩
  intro row hrow
  rcases List.mem_or_eq_of_mem_set hrow with h' | rfl
  · exact hg.2 row h'
  · exact ⟨hlen, hcells⟩

theorem getD_row_mem {g : Grid} {r : Nat} (hr : r < g.length) :
    g.getD r [] = g[r] := by
  rw [List.getD_eq_getElem?_getD, List.getElem?_eq_getElem hr]
  rfl

theorem applyTap_gridWF {pc : Nat} (g : Grid) (h : History) (r c : Nat)
    (hg : GridWF pc g) : GridWF pc (applyTap g h r c).1 := by
  unfold applyTap
  by_cases hr : r < g.length
  · obtain ⟨hlen, hcells⟩ := hg.2 g[r] (List.getElem_mem hr)
    apply gridWF_set hg
    · rw [getD_row_mem hr, List.length_set]; exact hlen
    · rw [getD_row_mem hr]
      exact rowCells_le_of_set c hcells (Nat.min_le_right _ _)
  · show GridWF pc (g.set r _)
    rw [List.set_eq_of_length_le (Nat.le_of_not_lt hr)]
    exact hg

theorem applyTap_histWF {pc : Nat} {g : Grid} {h : History} (r c : Nat)
    (hg : GridWF pc g) (hh : HistWF h) : HistWF (applyTap g h r c).2 := by
  unfold applyTap HistWF
  intro m hm
  rcases List.mem_append.mp hm with h' | h'
  · exact hh m h'
  · have hm' : m = ⟨r, c, (getCell g r c).taps⟩ := by simpa using h'
    rw [hm']
    exact getCell_taps_le (fun row hrow cell hcell => (hg.2 row hrow).2 cell hcell) r c

theorem undo_gridWF {pc : Nat} {g : Grid} {h : History}
    (hg : GridWF pc g) (hh : HistWF h) : GridWF pc (undo g h).1 := by
  unfold undo
  cases hlast : h.getLast? with
  | none => exact hg
  | some m =>
    have hmem : m ∈ h := List.mem_of_getLast?_eq_some hlast
    by_cases hr : m.rowIndex < g.length
    · obtain ⟨hlen, hcells⟩ := hg.2 g[m.rowIndex] (List.getElem_mem hr)
      apply gridWF_set hg
      · rw [getD_row_mem hr, List.length_set]; exact hlen
      · rw [getD_row_mem hr]
        exact rowCells_le_of_set m.colIndex hcells (hh m hmem)
    · show GridWF pc (g.set m.rowIndex _)
      rw [List.set_eq_of_length_le (Nat.le_of_not_lt hr)]
      exact hg

theorem undo_histWF {g : Grid} {h : History} (hh : HistWF h) :
    HistWF (undo g h).2 := by
  unfold undo
  cases h.getLast? with
  | none => exact hh
  | some m => exact fun x hx => hh x (List.dropLast_subset h hx)

theorem initialGridState_gridWF (pc : Nat) : GridWF pc (initialGridState pc) := by
  constructor
  · rfl
  · intro row hrow
    simp only [initialGridState, List.mem_map] at hrow
    obtain ⟨_, _, hrow⟩ := hrow
    subst hrow
    refine ⟨List.length_replicate _ _, ?_⟩
    intro cell hcell
    rw [List.eq_of_mem_replicate hcell]
    exact Nat.zero_le 3

theorem applyTaps_wf {pc : Nat} :
    ∀ (taps : List (Nat × Nat)) (g : Grid) (h : History),
      GridWF pc g → HistWF h →
      GridWF pc (applyTaps (g, h) taps).1 ∧ HistWF (applyTaps (g, h) taps).2 := by
  intro taps
  induction taps with
  | nil => exact fun g h hg hh => ⟨hg, hh⟩
  | cons t ts ih =>
    intro g h hg hh
    have step : applyTaps (g, h) (t :: ts) =
        applyTaps (applyTap g h t.1 t.2) ts := rfl
    rw [step]
    have := ih (applyTap g h t.1 t.2).1 (applyTap g h t.1 t.2).2
      (applyTap_gridWF g h t.1 t.2 hg) (applyTap_histWF t.1 t.2 hg hh)
    simpa using this

end GridLemmas

/-- C5: the grid invariant (7 rows, `playerCount` cells per row, taps
in `[0,3]`) is preserved by a tap and by an undo, is established by a
reset, and survives any sequence of taps at any cells: no cell's taps
ever exceeds 3. -/
theorem invariant_preserved (pc r c : Nat) (g : Grid) (h : History)
    (taps : List (Nat × Nat)) (hg : GridWF pc g) (hh : HistWF h) :
    GridWF pc (applyTap g h r c).1 ∧ HistWF (applyTap g h r c).2
    ∧ GridWF pc (undo g h).1 ∧ HistWF (undo g h).2
    ∧ GridWF pc (initialGridState pc) ∧ HistWF ([] : History)
    ∧ GridWF pc (applyTaps (g, h) taps).1
    ∧ HistWF (applyTaps (g, h) taps).2 :=
  ⟨applyTap_gridWF g h r c hg, applyTap_histWF r c hg hh,
    undo_gridWF hg hh, undo_histWF hh,
    initialGridState_gridWF pc, fun m hm => absurd hm (List.not_mem_nil m),
    (applyTaps_wf taps g h hg hh).1, (applyTaps_wf taps g h hg hh).2⟩

/-- Witness for C5: a fresh 2-player grid, one recorded move, and four
consecutive taps on the same cell. -/
theorem invariant_preserved_witness :
    GridWF 2 (initialGridState 2) ∧ HistWF [⟨0, 0, 2⟩]
    ∧ (GridWF 2 (applyTap (initialGridState 2) [⟨0, 0, 2⟩] 0 0).1
      ∧ HistWF (applyTap (initialGridState 2) [⟨0, 0, 2⟩] 0 0).2
      ∧ GridWF 2 (undo (initialGridState 2) [⟨0, 0, 2⟩]).1
      ∧ HistWF (undo (initialGridState 2) [⟨0, 0, 2⟩]).2
      ∧ GridWF 2 (initialGridState 2) ∧ HistWF ([] : History)
      ∧ GridWF 2 (applyTaps (initialGridState 2, [⟨0, 0, 2⟩])
          [(0, 0), (0, 0), (0, 0), (0, 0)]).1
      ∧ HistWF (applyTaps (initialGridState 2, [⟨0, 0, 2⟩])
          [(0, 0), (0, 0), (0, 0), (0, 0)]).2) :=
  ⟨by decide, by decide,
    invariant_preserved 2 0 0 (initialGridState 2) [⟨0, 0, 2⟩]
      [(0, 0), (0, 0), (0, 0), (0, 0)] (by decide) (by decide)⟩

section SetLemmas

theorem getD_set_self {α : Type} {l : List α} {n : Nat} {a : α} (d : α)
    (hn : n < l.length) : (l.set n a).getD n d = a := by
  rw [List.getD_eq_getElem?_getD, List.getElem?_set_self hn]
  rfl

theorem set_getD_self {α : Type} {l : List α} {n : Nat} (d : α)
    (hn : n < l.length) : l.set n (l.getD n d) = l := by
  apply List.ext_getElem?
  intro m
  rw [List.getElem?_set]
  by_cases hm : n = m
  · subst hm
    rw [if_pos rfl, if_pos hn, List.getD_eq_getElem?_getD,
      List.getElem?_eq_getElem hn]
    rfl
  · rw [if_neg hm]

end SetLemmas

/-- C6: undoing immediately after a single tap restores exactly the prior
grid and history, for any in-range cell: `undo (applyTap g h r c) = (g, h)`;
the tapped cell returns to its previous taps and no other cell is touched
(full grid equality). -/
theorem undo_applyTap_inverse (g : Grid) (h : History) (r c : Nat)
    (hr : r < g.length) (hc : c < (g.getD r []).length) :
    undo (applyTap g h r c).1 (applyTap g h r c).2 = (g, h) := by
  unfold applyTap undo
  simp only [List.getLast?_concat, List.dropLast_concat]
  have hres : (g.set r ((g.getD r []).set c
      ⟨min ((getCell g r c).taps + 1) 3⟩)).getD r [] =
      (g.getD r []).set c ⟨min ((getCell g r c).taps + 1) 3⟩ :=
    getD_set_self [] hr
  rw [hres, List.set_set, List.set_set]
  have hcell : (⟨(getCell g r c).taps⟩ : Cell) = (g.getD r []).getD c ⟨0⟩ := rfl
  rw [hcell, set_getD_self _ hc, set_getD_self _ hr]

/-- Witness for C6 at the fresh 2-player grid, cell (0,0). -/
theorem undo_applyTap_inverse_witness :
    0 < (initialGridState 2).length
    ∧ 0 < ((initialGridState 2).getD 0 []).length
    ∧ undo (applyTap (initialGridState 2) [] 0 0).1
        (applyTap (initialGridState 2) [] 0 0).2 = (initialGridState 2, []) :=
  ⟨by decide, by decide,
    undo_applyTap_inverse (initialGridState 2) [] 0 0 (by decide) (by decide)⟩

theorem applyTaps_len (taps : List (Nat × Nat)) :
    ∀ gh : Grid × History,
      (applyTaps gh taps).2.length = gh.2.length + taps.length := by
  induction taps with
  | nil => intro gh; rfl
  | cons t ts ih =>
    intro gh
    have step : applyTaps gh (t :: ts) =
        applyTaps (applyTap gh.1 gh.2 t.1 t.2) ts := rfl
    rw [step, ih]
    simp [applyTap]
    omega

theorem getCell_applyTap_self (g : Grid) (h : History) (r c : Nat)
    (hr : r < g.length) (hc : c < (g.getD r []).length) :
    getCell (applyTap g h r c).1 r c = ⟨min ((getCell g r c).taps + 1) 3⟩ := by
  unfold applyTap getCell
  rw [getD_set_self [] hr, getD_set_self (⟨0⟩ : Cell) hc]

/-- C7: a tap on any in-range cell always appends exactly one move
`{rowIndex, colIndex, previousTaps}` to the history — even when the cell
already had 3 taps and does not change (`previousTaps = 3 =` the new
taps), so after `n` taps the history has grown by exactly `n`. -/
theorem tap_always_appends_move (g : Grid) (h : History) (r c : Nat)
    (hr : r < g.length) (hc : c < (g.getD r []).length) :
    (applyTap g h r c).2 = h ++ [⟨r, c, (getCell g r c).taps⟩]
    ∧ (applyTap g h r c).2.length = h.length + 1
    ∧ ((getCell g r c).taps = 3 →
        (getCell (applyTap g h r c).1 r c).taps = (getCell g r c).taps)
    ∧ ∀ taps : List (Nat × Nat),
        (applyTaps (g, h) taps).2.length = h.length + taps.length := by
  refine ⟨rfl, by simp [applyTap], ?_, fun taps => applyTaps_len taps (g, h)⟩
  intro h3
  rw [getCell_applyTap_self g h r c hr hc, h3]
  rfl

/-- Witness for C7 on a grid whose (0,0) cell is already at 3 taps. -/
theorem tap_always_appends_move_witness :
    0 < maxedGrid.length
    ∧ 0 < (maxedGrid.getD 0 []).length
    ∧ ((applyTap maxedGrid [] 0 0).2
        = [] ++ [⟨0, 0, (getCell maxedGrid 0 0).taps⟩]
      ∧ (applyTap maxedGrid [] 0 0).2.length = ([] : History).length + 1
      ∧ ((getCell maxedGrid 0 0).taps = 3 →
          (getCell (applyTap maxedGrid [] 0 0).1 0 0).taps
            = (getCell maxedGrid 0 0).taps)
      ∧ ∀ taps : List (Nat × Nat),
          (applyTaps (maxedGrid, []) taps).2.length
            = ([] : History).length + taps.length) :=
  ⟨by decide, by decide,
    tap_always_appends_move maxedGrid [] 0 0 (by decide) (by decide)⟩

theorem all_column_iff (g' : Grid) (c : Nat) :
    ((g'.map (fun row => row.getD c ⟨0⟩)).all (fun cell => cell.taps == 3) = true)
    ↔ ∀ row ∈ g', (row.getD c ⟨0⟩).taps = 3 := by
  rw [List.all_eq_true]
  constructor
  · intro ha row hrow
    exact beq_iff_eq.mp (ha _ (List.mem_map_of_mem _ hrow))
  · intro hb cell hcell
    obtain ⟨row, hrow, rfl⟩ := List.mem_map.mp hcell
    exact beq_iff_eq.mpr (hb row hrow)

/-- C4: a tap reports the tapped column as winner exactly when, after the
tap, every one of the grid's 7 rows holds a 3-tap cell in that column;
and the win signal can only ever name the tapped column, so tapping a
cell of an already-closed column never signals a win for a different
column. -/
theorem tap_reports_win_iff_column_closed (g : Grid) (h : History) (r c : Nat)
    (h7 : g.length = 7) :
    (applyTap g h r c).1.length = 7
    ∧ (tapWinner g h r c = some c ↔
        ∀ row ∈ (applyTap g h r c).1, (row.getD c ⟨0⟩).taps = 3)
    ∧ (∀ w, tapWinner g h r c = some w → w = c) := by
  refine ⟨by simp [applyTap, h7], ?_, ?_⟩
  · unfold tapWinner checkForWinner
    by_cases hcond : ((applyTap g h r c).1.map
        (fun row => row.getD c ⟨0⟩)).all (fun cell => cell.taps == 3) = true
    · rw [if_pos hcond]
      exact iff_of_true rfl ((all_column_iff _ c).mp hcond)
    · rw [if_neg hcond]
      apply iff_of_false
      · exact fun habs => Option.noConfusion habs
      · exact fun hall => hcond ((all_column_iff _ c).mpr hall)
  · intro w hw
    unfold tapWinner checkForWinner at hw
    by_cases hcond : ((applyTap g h r c).1.map
        (fun row => row.getD c ⟨0⟩)).all (fun cell => cell.taps == 3) = true
    · rw [if_pos hcond] at hw
      exact (Option.some_injective _ hw).symm
    · rw [if_neg hcond] at hw
      exact absurd hw (Option.noConfusion)

/-- Witness for C4: the finishing tap at (0,0) on `almostWonGrid`. -/
theorem tap_reports_win_iff_column_closed_witness :
    almostWonGrid.length = 7
    ∧ ((applyTap almostWonGrid [] 0 0).1.length = 7
      ∧ (tapWinner almostWonGrid [] 0 0 = some 0 ↔
          ∀ row ∈ (applyTap almostWonGrid [] 0 0).1, (row.getD 0 ⟨0⟩).taps = 3)
      ∧ (∀ w, tapWinner almostWonGrid [] 0 0 = some w → w = 0)) :=
  ⟨by decide, tap_reports_win_iff_column_closed almostWonGrid [] 0 0 (by decide)⟩

/-- C3 (counterexample): in the WON state the reset operation is NOT
disabled — the source's `handleResetBoard` has no winner guard — so
confirming a reset changes the grid and the history out of WON. -/
theorem reset_not_disabled_after_win :
    wonState.isWinnerDeclared = true
    ∧ handleResetBoardConfirm wonState ≠ wonState
    ∧ (handleResetBoardConfirm wonState).grid ≠ wonState.grid
    ∧ (handleResetBoardConfirm wonState).history ≠ wonState.history := by
  refine ⟨rfl, ?_, ?_, ?_⟩ <;> decide

/-- C3 (amended): once a winner is declared, tap and undo are refused
(the session state is returned unchanged), but reset is not disabled:
confirming it reinitialises the grid and clears the history even in the
WON state. -/
theorem won_refuses_tap_undo_not_reset (s : SessionState) (r c : Nat)
    (hw : s.isWinnerDeclared = true) :
    handleCellPress s r c = s
    ∧ handleUndo s = s
    ∧ (handleResetBoardConfirm s).grid = initialGridState s.players.length
    ∧ (handleResetBoardConfirm s).history = [] := by
  refine ⟨?_, ?_, rfl, rfl⟩
  · unfold handleCellPress
    rw [if_pos (by rw [hw])]
  · unfold handleUndo
    rw [if_pos (Or.inr (by rw [hw]))]

/-- Witness for C3's amended statement at the concrete WON session. -/
theorem won_refuses_tap_undo_not_reset_witness :
    wonState.isWinnerDeclared = true
    ∧ (handleCellPress wonState 0 0 = wonState
      ∧ handleUndo wonState = wonState
      ∧ (handleResetBoardConfirm wonState).grid
          = initialGridState wonState.players.length
      ∧ (handleResetBoardConfirm wonState).history = []) :=
  ⟨rfl, won_refuses_tap_undo_not_reset wonState 0 0 rfl⟩

/-- C2 (counterexample): migration appends to the completed collection
(a plain push, not an upsert), so when a completed record named "G"
already exists and "G" is also in progress, the win handler leaves TWO
completed records named "G", not exactly one. -/
theorem migrate_duplicates_completed :
    cxStore.inProgressGames.countP (hasName "G") = 1
    ∧ (saveCompletedGame cxStore "G" ["Player 1", "Player 2"]
        (initialGridState 2) "Player 1" "1/1/2025" "12:00").completedGames.countP
        (hasName "G") = 2 := by
  constructor
  · rfl
  · rfl

/-- C2 (amended): given that the completed collection holds no record of
the session's `gameName` before the win, migration leaves the
in-progress collection without any record of that name and the completed
collection with exactly one record of that name, bearing the supplied
winner name. -/
theorem migrate_to_completed_unique (store : Store) (gameName winnerName : String)
    (players : List String) (grid : Grid) (d t : String)
    (hnone : store.completedGames.countP (hasName gameName) = 0) :
    (saveCompletedGame store gameName players grid winnerName d t).inProgressGames.countP
      (hasName gameName) = 0
    ∧ (saveCompletedGame store gameName players grid winnerName d t).completedGames.countP
      (hasName gameName) = 1
    ∧ ∀ r ∈ (saveCompletedGame store gameName players grid winnerName d t).completedGames,
        r.gameName = gameName → r.winner = some winnerName := by
  unfold saveCompletedGame removeFromInProgress
  refine ⟨countP_filter_ne_name _ _, ?_, ?_⟩
  · rw [List.countP_append, hnone]
    simp [hasName]
  · intro r hr hname
    rcases List.mem_append.mp hr with h' | h'
    · have : ¬ hasName gameName r = true := List.countP_eq_zero.mp hnone r h'
      exact absurd (by simp [hasName, hname]) this
    · have : r = ⟨gameName, players, grid, [], d, some t, some winnerName⟩ := by
        simpa using h'
      rw [this]

/-- Witness for C2's amended statement at a store with an empty completed
collection. -/
theorem migrate_to_completed_unique_witness :
    freshStore.completedGames.countP (hasName "G") = 0
    ∧ ((saveCompletedGame freshStore "G" ["Player 1", "Player 2"]
          (initialGridState 2) "Player 1" "1/1/2025" "12:00").inProgressGames.countP
        (hasName "G") = 0
      ∧ (saveCompletedGame freshStore "G" ["Player 1", "Player 2"]
          (initialGridState 2) "Player 1" "1/1/2025" "12:00").completedGames.countP
        (hasName "G") = 1
      ∧ ∀ r ∈ (saveCompletedGame freshStore "G" ["Player 1", "Player 2"]
          (initialGridState 2) "Player 1" "1/1/2025" "12:00").completedGames,
          r.gameName = "G" → r.winner = some "Player 1") :=
  ⟨rfl, migrate_to_completed_unique freshStore "G" "Player 1"
    ["Player 1", "Player 2"] (initialGridState 2) "1/1/2025" "12:00" rfl⟩

/-- C8 (counterexample): with the players parameter parsing to
`["A","B"]` and a malformed grid parameter, initialization neither keeps
2 default players nor falls back to a fresh all-zero grid: it keeps the
parsed players and leaves the grid empty, and it redirects to setup. -/
theorem parse_failure_fallback_cx :
    parseParams (Param.parsed ["A", "B"]) Param.malformed Param.absent
      = ⟨["A", "B"], [], [], true⟩
    ∧ (parseParams (Param.parsed ["A", "B"]) Param.malformed Param.absent).players
        ≠ defaultPlayers
    ∧ (parseParams (Param.parsed ["A", "B"]) Param.malformed Param.absent).grid
        ≠ initialGridState 2 := by
  refine ⟨rfl, ?_, ?_⟩ <;> decide

/-- C8 (amended): a failing parse never fails the session — initialization
is total and redirects to game setup — but the fallback is positional,
not the full default state: parsing stops at the first failing
parameter, parameters parsed before it keep their parsed values, and the
grid and history are left at their pre-try defaults (the EMPTY grid, not
a fresh all-zero one, and the empty history). -/
theorem parse_failure_graceful (playersParam : Param (List String))
    (gridParam : Param Grid) (historyParam : Param History)
    (hfail : playersParam = Param.malformed ∨ gridParam = Param.malformed
      ∨ historyParam = Param.malformed) :
    (parseParams playersParam gridParam historyParam).redirected = true
    ∧ (parseParams playersParam gridParam historyParam).history = []
    ∧ (playersParam = Param.malformed →
        parseParams playersParam gridParam historyParam
          = ⟨defaultPlayers, [], [], true⟩)
    ∧ (gridParam = Param.malformed →
        (parseParams playersParam gridParam historyParam).grid = [])
    ∧ (∀ p, playersParam = Param.parsed p →
        (parseParams playersParam gridParam historyParam).players = p) := by
  rcases playersParam with _ | _ | p <;>
    rcases gridParam with _ | _ | gv <;>
    rcases historyParam with _ | _ | hv <;>
    simp_all [parseParams]

/-- Witness for C8's amended statement: parsed players, malformed grid. -/
theorem parse_failure_graceful_witness :
    ((Param.parsed ["A", "B"] : Param (List String)) = Param.malformed
      ∨ (Param.malformed : Param Grid) = Param.malformed
      ∨ (Param.absent : Param History) = Param.malformed)
    ∧ ((parseParams (Param.parsed ["A", "B"]) Param.malformed Param.absent).redirected = true
      ∧ (parseParams (Param.parsed ["A", "B"]) Param.malformed Param.absent).history = []
      ∧ ((Param.parsed ["A", "B"] : Param (List String)) = Param.malformed →
          parseParams (Param.parsed ["A", "B"]) Param.malformed Param.absent
            = ⟨defaultPlayers, [], [], true⟩)
      ∧ ((Param.malformed : Param Grid) = Param.malformed →
          (parseParams (Param.parsed ["A", "B"]) Param.malformed Param.absent).grid = [])
      ∧ (∀ p, (Param.parsed ["A", "B"] : Param (List String)) = Param.parsed p →
          (parseParams (Param.parsed ["A", "B"]) Param.malformed Param.absent).players = p)) :=
  ⟨Or.inr (Or.inl rfl),
    parse_failure_graceful (Param.parsed ["A", "B"]) Param.malformed Param.absent
      (Or.inr (Or.inl rfl))⟩

end Cricket
